import Mathlib

/-!
Shallow embedding of the mailtrap-go client library: the send-email data
model and validation routine from sending.go, and the transport core from
client.go (request construction, response decoding, error classification).
Go strings are Lean strings; Go byte length of a string is
String.utf8ByteSize; Go slices and maps are Lean lists (a Go nil slice or
map is the empty list, which is how every zero value in this development
arises); Go pointer state (the shared base URL) is passed explicitly.
-/

namespace Mailtrap

/-- Go struct EmailAddress (sending.go): an email string and a display name. -/
structure EmailAddress where
  email : String
  name : String
  deriving DecidableEq

/-- Go struct EmailAttachment (sending.go): base64 content, MIME type,
filename, content disposition and content ID. -/
structure EmailAttachment where
  content : String
  attachType : String
  filename : String
  disposition : String
  contentID : String
  deriving DecidableEq

/-- Go struct SendEmailRequest (sending.go). The Go field From is named
fromAddr because from is a reserved word in Lean; Headers and CustomVars
are association lists standing for Go maps. -/
structure SendEmailRequest where
  fromAddr : EmailAddress
  toAddrs : List EmailAddress
  cc : List EmailAddress
  bcc : List EmailAddress
  attachments : List EmailAttachment
  headers : List (String × String)
  customVars : List (String × String)
  subject : String
  text : String
  html : String
  category : String
  deriving DecidableEq

/-- Go struct SendEmailResponse (sending.go). -/
structure SendEmailResponse where
  success : Bool
  messageIDs : List String
  deriving DecidableEq

/-- The literal message strings produced by SendEmailRequest.validate and
by the nil-request guard of Send (sending.go). -/
def fromRequiredMsg : String := "'from' address is required"

def toRequiredMsg : String := "'to' address is required"

def toEmailRequiredMsg : String := "'email' is required in 'to' address"

def contentRequiredMsg : String := "'content' is required in attachment"

def filenameRequiredMsg : String := "'filename' is required in attachment"

def subjectRequiredMsg : String := "'subject' is required"

def textOrHTMLRequiredMsg : String := "one of 'text' or 'html' is required"

/-- The Go constant categoryMaxLength in SendEmailRequest.validate. -/
def categoryMaxLength : Nat := 255

/-- fmt.Errorf of "'category' is greater than %d chars" at 255. -/
def categoryTooLongMsg : String := "'category' is greater than 255 chars"

/-- The nil-request guard message of both Send methods (sending.go). -/
def mandatoryMsg : String := "request `SendEmailRequest` is mandatory"

/-- The for-range loop over r.To in SendEmailRequest.validate: returns the
error for the first entry with an empty email, none otherwise. -/
def validateTo : List EmailAddress → Option String
  | [] => none
  | v :: rest => if v.email = "" then some toEmailRequiredMsg else validateTo rest

/-- The for-range loop over r.Attachments in SendEmailRequest.validate:
for each attachment, in order, appends the content message when Content is
empty and then the filename message when Filename is empty. -/
def attachmentErrMsgs : List EmailAttachment → List String
  | [] => []
  | v :: rest =>
      (if v.content = "" then [contentRequiredMsg] else []) ++
        (if v.filename = "" then [filenameRequiredMsg] else []) ++
        attachmentErrMsgs rest

/-- The attachment block of SendEmailRequest.validate: when Attachments is
non-empty and any messages were accumulated, they are joined by strings.Join
with separator "; " and returned as one error. -/
def validateAttachments (atts : List EmailAttachment) : Option String :=
  if atts.length > 0 then
    let errMsg := attachmentErrMsgs atts
    if errMsg.length > 0 then some (String.intercalate "; " errMsg) else none
  else none

/-- SendEmailRequest.validate (sending.go): the seven checks in source
order, each returning its message and short-circuiting the rest, except the
attachment block which aggregates. Go len of a string counts bytes, hence
utf8ByteSize for the category bound. -/
def validate (r : SendEmailRequest) : Option String :=
  if r.fromAddr.email = "" then some fromRequiredMsg
  else if r.toAddrs.length = 0 then some toRequiredMsg
  else
    match validateTo r.toAddrs with
    | some e => some e
    | none =>
      match validateAttachments r.attachments with
      | some e => some e
      | none =>
        if r.subject = "" then some subjectRequiredMsg
        else if r.text = "" ∧ r.html = "" then some textOrHTMLRequiredMsg
        else if r.category.utf8ByteSize > categoryMaxLength then some categoryTooLongMsg
        else none

/-! ### JSON marshalling (encoding/json on the structs' tags)

The struct tags in sending.go carry no omitempty option, so json.Marshal
emits every field in declaration order; a nil slice or map (the zero
value, the empty list here) encodes as null. String escaping is modelled
for strings free of characters that Go escapes (true of every string this
development evaluates on); Go's sorted map keys are modelled by list
order (maps are only ever evaluated at the empty list here). -/

/-- A JSON string literal for a string needing no escapes. -/
def renderString (s : String) : String := "\"" ++ s ++ "\""

/-- json.Marshal of an EmailAddress: tags "email", "name", no omitempty. -/
def marshalEmailAddress (a : EmailAddress) : String :=
  "\x7b\"email\":" ++ renderString a.email ++ ",\"name\":" ++ renderString a.name ++ "\x7d"

/-- json.Marshal of an EmailAttachment: tags "content", "type",
"filename", "disposition", "content_id" in declaration order, no omitempty. -/
def marshalEmailAttachment (a : EmailAttachment) : String :=
  "\x7b\"content\":" ++ renderString a.content ++
    ",\"type\":" ++ renderString a.attachType ++
    ",\"filename\":" ++ renderString a.filename ++
    ",\"disposition\":" ++ renderString a.disposition ++
    ",\"content_id\":" ++ renderString a.contentID ++ "\x7d"

/-- json.Marshal of a Go slice: the nil (zero-value) slice encodes as
null, a non-empty one as a JSON array. -/
def marshalList {α : Type} (f : α → String) : List α → String
  | [] => "null"
  | xs => "[" ++ String.intercalate "," (xs.map f) ++ "]"

/-- json.Marshal of a Go map[string]string: nil map encodes as null. -/
def marshalStringMap : List (String × String) → String
  | [] => "null"
  | ps => "\x7b" ++
      String.intercalate "," (ps.map (fun p => "\"" ++ p.1 ++ "\":" ++ renderString p.2)) ++ "\x7d"

/-- json.Marshal of a SendEmailRequest: the eleven fields in declaration
order with the tags of sending.go, none of which has omitempty. -/
def marshalSendEmailRequest (r : SendEmailRequest) : String :=
  "\x7b\"from\":" ++ marshalEmailAddress r.fromAddr ++
    ",\"to\":" ++ marshalList marshalEmailAddress r.toAddrs ++
    ",\"cc\":" ++ marshalList marshalEmailAddress r.cc ++
    ",\"bcc\":" ++ marshalList marshalEmailAddress r.bcc ++
    ",\"attachments\":" ++ marshalList marshalEmailAttachment r.attachments ++
    ",\"headers\":" ++ marshalStringMap r.headers ++
    ",\"custom_variables\":" ++ marshalStringMap r.customVars ++
    ",\"subject\":" ++ renderString r.subject ++
    ",\"text\":" ++ renderString r.text ++
    ",\"html\":" ++ renderString r.html ++
    ",\"category\":" ++ renderString r.category ++ "\x7d"

/-- The all-default (zero-value) SendEmailRequest. -/
def emptySendEmailRequest : SendEmailRequest :=
  { fromAddr := { email := "", name := "" }, toAddrs := [], cc := [], bcc := [],
    attachments := [], headers := [], customVars := [], subject := "", text := "",
    html := "", category := "" }

/-! ### Transport core (client.go) -/

/-- The scheme, host and path of a parsed net/url URL, the parts the
client reads and writes. -/
structure URLModel where
  scheme : String
  host : String
  path : String
  deriving DecidableEq

/-- Go struct client (client.go). baseURL is a pointer to a url.URL in the
source; state passing below makes its mutation explicit. The HTTP handle
and its timeout live outside the model (the network is a function
parameter where needed). -/
structure Client where
  apiKey : String
  baseURL : URLModel
  userAgent : String
  deriving DecidableEq

/-- The Go constant defaultAccept (client.go). -/
def defaultAccept : String := "application/json"

/-- The Go constant apiSuffix (client.go). -/
def apiSuffix : String := "api"

/-- url.Parse of the Go constant sendingAPIURL. -/
def sendingAPIURL : URLModel :=
  { scheme := "https", host := "send.api.mailtrap.io", path := "/" }

/-- url.Parse of the Go constant sandboxAPIURL. -/
def sandboxAPIURL : URLModel :=
  { scheme := "https", host := "sandbox.api.mailtrap.io", path := "/" }

/-- The process-wide Go variable userAgent,
"mailtrap-go/<libVersion> (<GOOS> <GOARCH>) go/<go version>"; its
environment-dependent pieces are frozen to placeholder words. -/
def userAgent : String := "mailtrap-go/0.1.2 (os arch) go/version"

/-- getClient (client.go): parse the base URL, append apiSuffix to its
path, store the key and the process user agent. -/
def getClient (apiKey : String) (baseURL : URLModel) : Client :=
  { apiKey := apiKey,
    baseURL := { baseURL with path := baseURL.path ++ apiSuffix },
    userAgent := userAgent }

/-- The outgoing request value client.NewRequest builds: the url.URL it
computed, the method, the body the http.Request ends up carrying (none
both for the GET/HEAD/OPTIONS arm, which passes a nil reader, and for a
nil body in the other arm, whose empty buffer net/http turns into
http.NoBody), and the headers in the order the four Set calls run. The
body argument is carried as its JSON serialization (Go serializes the
interface value; callers here always pass an already-typed payload). -/
structure BuiltRequest where
  method : String
  url : URLModel
  bodyAttached : Option String
  headers : List (String × String)
  deriving DecidableEq

/-- client.NewRequest (client.go). The source does
u := c.baseURL followed by u.Path = c.baseURL.Path + path on the shared
pointer, so the client's own base URL ends up with the appended path: the
second component is the client after the call. json.NewEncoder.Encode
appends a newline to the serialized body. -/
def NewRequest (c : Client) (method path : String) (body : Option String) :
    BuiltRequest × Client :=
  let u : URLModel := { c.baseURL with path := c.baseURL.path ++ path }
  let bodyAttached : Option String :=
    if method = "GET" ∨ method = "HEAD" ∨ method = "OPTIONS" then none
    else body.map (fun b => b ++ "\n")
  let headers : List (String × String) :=
    (if body.isSome then [("Content-Type", "application/json")] else []) ++
      [("Accept", defaultAccept), ("User-Agent", c.userAgent),
       ("Authorization", "Bearer " ++ c.apiKey)]
  ({ method := method, url := u, bodyAttached := bodyAttached, headers := headers },
   { c with baseURL := u })

/-- http.Header.Get on the header list model. -/
def headerGet (hs : List (String × String)) (k : String) : String :=
  ((hs.lookup k).getD "")

/-- The status code, headers and fully read body of an http.Response. -/
structure HttpResponse where
  statusCode : Nat
  headers : List (String × String)
  body : String
  deriving DecidableEq

/-- Modelled from the spec: the ErrorResponse struct (its Go file is not
in the sources; client.go constructs it and sets its Message field). It
wraps the raw HTTP response plus a best-effort decoded message. -/
structure ErrorResponse where
  response : HttpResponse
  message : String
  deriving DecidableEq

/-- checkResponse (client.go): 200-299 is success; otherwise build an
ErrorResponse around the response, and when the body is non-empty try
json.Unmarshal into it (modelled by the unmarshal parameter, which yields
the decoded message field when the body is valid JSON); on unmarshal
failure the raw body text becomes the Message. The zero Message is the
empty string. -/
def checkResponse (unmarshal : String → Option String) (r : HttpResponse) :
    Option ErrorResponse :=
  if 200 ≤ r.statusCode ∧ r.statusCode ≤ 299 then none
  else
    some (if r.body.length > 0 then
            match unmarshal r.body with
            | some m => { response := r, message := m }
            | none => { response := r, message := r.body }
          else { response := r, message := "" })

/-- What client.Do's success path can do with the response body, given
the destination passed for v. -/
inductive DecodeOutcome (α : Type) where
  | discarded
  | raw (s : String)
  | typed (a : α)
  deriving DecidableEq

/-- The destination v of client.Do and client.decode: nil, a *string, or
a pointer to a typed value. -/
inductive DecodeDest where
  | rawString
  | typed
  deriving DecidableEq

/-- The Go message of the final errors.New in client.decode. -/
def undefinedResponseTypeMsg : String := "decode() undefined response type"

/-- The success-path body handling of client.Do and client.decode
(client.go): a nil v is skipped by Do (body discarded); a *string v
receives the whole body verbatim; otherwise, when the request's Accept
header is defaultAccept, the body is JSON-decoded into v (jsonDecode
models json.Decoder.Decode at v's type, returning the decoder's error on
failure); any other combination is the errors.New error. -/
def doDecode {α : Type} (jsonDecode : String → Except String α)
    (dest : Option DecodeDest) (body : String) (accept : String) :
    Except String (DecodeOutcome α) :=
  match dest with
  | none => .ok .discarded
  | some .rawString => .ok (.raw body)
  | some .typed =>
    if accept = defaultAccept then
      match jsonDecode body with
      | .ok a => .ok (.typed a)
      | .error e => .error e
    else .error undefinedResponseTypeMsg

/-- client.decode specialized to the typed destination the Send methods
pass (a *SendEmailResponse is not a *string and not nil). -/
def decodeTyped {α : Type} (jsonDecode : String → Except String α)
    (body : String) (accept : String) : Except String α :=
  if accept = defaultAccept then jsonDecode body else .error undefinedResponseTypeMsg

/-! ### The Send methods (sending.go)

Go Send returns (resp *SendEmailResponse, res *Response, err error);
SendOutcome packs the three, and the Client component carries the
base-URL state through NewRequest's pointer write. The network is a
function from the built request to the HTTP response (transport-level
failures are outside the claims being settled); unmarshal models
json.Unmarshal of the provider error body and respDecode models
json.Decoder.Decode at *SendEmailResponse. -/

/-- The (resp, res, err) result shapes of Send: the early failures with
nil response (nil-request guard, validation, request building), a non-2xx
response with its ErrorResponse, a decode failure with the response still
returned, and success. -/
inductive SendOutcome where
  | failure (err : String)
  | httpError (resp : HttpResponse) (err : ErrorResponse)
  | decodeError (resp : HttpResponse) (err : String)
  | success (resp : HttpResponse) (result : SendEmailResponse)
  deriving DecidableEq

/-- client.Do (client.go) as the Send methods use it: run the request,
classify with checkResponse, then decode the body into the typed
*SendEmailResponse destination using the request's Accept header. -/
def doRequest (net : BuiltRequest → HttpResponse)
    (unmarshal : String → Option String)
    (respDecode : String → Except String SendEmailResponse)
    (req : BuiltRequest) (c : Client) : SendOutcome × Client :=
  let resp := net req
  match checkResponse unmarshal resp with
  | some errResp => (.httpError resp errResp, c)
  | none =>
    match decodeTyped respDecode resp.body (headerGet req.headers "Accept") with
    | .ok sr => (.success resp sr, c)
    | .error e => (.decodeError resp e, c)

/-- The first half of ProductionSendingClient.Send (sending.go): the nil
guard, validate, and NewRequest with method POST and path "/send". -/
def ProductionPreflight (c : Client) (request : Option SendEmailRequest) :
    Except String (BuiltRequest × Client) :=
  match request with
  | none => .error mandatoryMsg
  | some r =>
    match validate r with
    | some e => .error e
    | none => .ok (NewRequest c "POST" "/send" (some (marshalSendEmailRequest r)))

/-- The first half of SandboxSendingClient.Send (sending.go): identical
but the path is fmt.Sprintf of "/send/%v" at the stored inboxID (an
int64, whose %v form is its decimal notation). -/
def SandboxPreflight (inboxID : Int) (c : Client) (request : Option SendEmailRequest) :
    Except String (BuiltRequest × Client) :=
  match request with
  | none => .error mandatoryMsg
  | some r =>
    match validate r with
    | some e => .error e
    | none => .ok (NewRequest c "POST" ("/send/" ++ toString inboxID) (some (marshalSendEmailRequest r)))

/-- ProductionSendingClient.Send (sending.go). -/
def ProductionSend (c : Client) (net : BuiltRequest → HttpResponse)
    (unmarshal : String → Option String)
    (respDecode : String → Except String SendEmailResponse)
    (request : Option SendEmailRequest) : SendOutcome × Client :=
  match ProductionPreflight c request with
  | .error e => (.failure e, c)
  | .ok (req, c') => doRequest net unmarshal respDecode req c'

/-- SandboxSendingClient.Send (sending.go). -/
def SandboxSend (inboxID : Int) (c : Client) (net : BuiltRequest → HttpResponse)
    (unmarshal : String → Option String)
    (respDecode : String → Except String SendEmailResponse)
    (request : Option SendEmailRequest) : SendOutcome × Client :=
  match SandboxPreflight inboxID c request with
  | .error e => (.failure e, c)
  | .ok (req, c') => doRequest net unmarshal respDecode req c'

/-- Modelled from the spec: the single parameterized send pipeline the
spec describes ("Both variants share one validation routine and differ
only in target path"), with the target path as its parameter. -/
def sendWithPath (path : String) (c : Client) (net : BuiltRequest → HttpResponse)
    (unmarshal : String → Option String)
    (respDecode : String → Except String SendEmailResponse)
    (request : Option SendEmailRequest) : SendOutcome × Client :=
  match request with
  | none => (.failure mandatoryMsg, c)
  | some r =>
    match validate r with
    | some e => (.failure e, c)
    | none =>
      let rc := NewRequest c "POST" path (some (marshalSendEmailRequest r))
      doRequest net unmarshal respDecode rc.1 rc.2

/-- The error component of a preflight result. -/
def errOf {α : Type} : Except String α → Option String
  | .error e => some e
  | .ok _ => none

/-! ### Helper lemmas about the validation loops -/

theorem validateTo_eq_none_iff (l : List EmailAddress) :
    validateTo l = none ↔ ∀ a ∈ l, a.email ≠ "" := by
  induction l with
  | nil => simp [validateTo]
  | cons v rest ih =>
    by_cases hv : v.email = "" <;> simp [validateTo, hv, ih]

theorem validateTo_eq_some (l : List EmailAddress) (h : ∃ a ∈ l, a.email = "") :
    validateTo l = some toEmailRequiredMsg := by
  induction l with
  | nil => simp at h
  | cons v rest ih =>
    by_cases hv : v.email = ""
    · simp [validateTo, hv]
    · have hr : ∃ a ∈ rest, a.email = "" := by
        rcases h with ⟨a, ha, he⟩
        rcases List.mem_cons.mp ha with rfl | ha'
        · exact absurd he hv
        · exact ⟨a, ha', he⟩
      simp [validateTo, hv, ih hr]

theorem attachmentErrMsgs_eq_nil_iff (l : List EmailAttachment) :
    attachmentErrMsgs l = [] ↔ ∀ a ∈ l, a.content ≠ "" ∧ a.filename ≠ "" := by
  induction l with
  | nil => simp [attachmentErrMsgs]
  | cons v rest ih =>
    by_cases hc : v.content = "" <;> by_cases hf : v.filename = "" <;>
      simp [attachmentErrMsgs, hc, hf, ih]

theorem validateAttachments_eq_none_iff (l : List EmailAttachment) :
    validateAttachments l = none ↔ attachmentErrMsgs l = [] := by
  rcases l with _ | ⟨v, rest⟩
  · simp [validateAttachments, attachmentErrMsgs]
  · by_cases h : attachmentErrMsgs (v :: rest) = []
    · simp [validateAttachments, h]
    · have hm : (attachmentErrMsgs (v :: rest)).length > 0 :=
        List.length_pos.mpr h
      simp [validateAttachments, h, hm]

theorem validateAttachments_eq_some (l : List EmailAttachment) (h1 : l ≠ [])
    (h2 : attachmentErrMsgs l ≠ []) :
    validateAttachments l = some (String.intercalate "; " (attachmentErrMsgs l)) := by
  have hl : l.length > 0 := List.length_pos.mpr h1
  have hm : (attachmentErrMsgs l).length > 0 := List.length_pos.mpr h2
  simp [validateAttachments, hl, hm]

theorem content_beq_filename_false :
    (contentRequiredMsg == filenameRequiredMsg) = false := by decide

theorem filename_beq_content_false :
    (filenameRequiredMsg == contentRequiredMsg) = false := by decide

theorem attachmentErrMsgs_count_content (l : List EmailAttachment) :
    (attachmentErrMsgs l).count contentRequiredMsg =
      (l.filter (fun v => v.content == "")).length := by
  induction l with
  | nil => simp [attachmentErrMsgs]
  | cons v rest ih =>
    by_cases hc : v.content = "" <;> by_cases hf : v.filename = "" <;>
      simp [attachmentErrMsgs, hc, hf, ih, List.count_append, List.count_cons,
        List.filter_cons, filename_beq_content_false]

theorem attachmentErrMsgs_count_filename (l : List EmailAttachment) :
    (attachmentErrMsgs l).count filenameRequiredMsg =
      (l.filter (fun v => v.filename == "")).length := by
  induction l with
  | nil => simp [attachmentErrMsgs]
  | cons v rest ih =>
    by_cases hc : v.content = "" <;> by_cases hf : v.filename = "" <;>
      simp [attachmentErrMsgs, hc, hf, ih, List.count_append, List.count_cons,
        List.filter_cons, content_beq_filename_false]

/-- Shared: a validation failure makes ProductionSendingClient.Send
return that error with no response and the client untouched. -/
theorem productionSend_of_validate_some (c : Client) (net : BuiltRequest → HttpResponse)
    (unmarshal : String → Option String)
    (respDecode : String → Except String SendEmailResponse)
    (r : SendEmailRequest) (e : String) (h : validate r = some e) :
    ProductionSend c net unmarshal respDecode (some r) = (.failure e, c) := by
  simp [ProductionSend, ProductionPreflight, h]

/-- Shared: the same for SandboxSendingClient.Send. -/
theorem sandboxSend_of_validate_some (inboxID : Int) (c : Client)
    (net : BuiltRequest → HttpResponse) (unmarshal : String → Option String)
    (respDecode : String → Except String SendEmailResponse)
    (r : SendEmailRequest) (e : String) (h : validate r = some e) :
    SandboxSend inboxID c net unmarshal respDecode (some r) = (.failure e, c) := by
  simp [SandboxSend, SandboxPreflight, h]

/-- The spec's seven validation rules in their fixed order, as
violation predicates: from.email non-empty, to non-empty, every to-entry
email non-empty, attachment content and filename present, subject
non-empty, text-or-html non-empty, category byte length at most 255. -/
def violatesRule (r : SendEmailRequest) : Nat → Prop
  | 0 => r.fromAddr.email = ""
  | 1 => r.toAddrs = []
  | 2 => ∃ a ∈ r.toAddrs, a.email = ""
  | 3 => r.attachments ≠ [] ∧ ∃ a ∈ r.attachments, a.content = "" ∨ a.filename = ""
  | 4 => r.subject = ""
  | 5 => r.text = "" ∧ r.html = ""
  | 6 => r.category.utf8ByteSize > 255
  | _ + 7 => False

/-- The message the spec specifies for each rule; for the attachment rule
it is the accumulated messages joined by "; ". -/
def ruleMessage (r : SendEmailRequest) : Nat → String
  | 0 => fromRequiredMsg
  | 1 => toRequiredMsg
  | 2 => toEmailRequiredMsg
  | 3 => String.intercalate "; " (attachmentErrMsgs r.attachments)
  | 4 => subjectRequiredMsg
  | 5 => textOrHTMLRequiredMsg
  | 6 => categoryTooLongMsg
  | _ + 7 => ""

/-- Shared: the non-violation of rule 3 makes the attachment block pass. -/
theorem validateAttachments_eq_none_of_not_rule3 (l : List EmailAttachment)
    (h : ¬(l ≠ [] ∧ ∃ a ∈ l, a.content = "" ∨ a.filename = "")) :
    validateAttachments l = none := by
  rw [validateAttachments_eq_none_iff]
  by_cases he : l = []
  · simp [he, attachmentErrMsgs]
  · rw [attachmentErrMsgs_eq_nil_iff]
    intro a ha
    exact ⟨fun hc => h ⟨he, a, ha, Or.inl hc⟩, fun hf => h ⟨he, a, ha, Or.inr hf⟩⟩

/-- C1: a send request violating one of the seven validation rules and no
earlier rule in the fixed order makes validate, and hence both clients'
Send, return exactly the specified message for that rule, the validation
short-circuiting at the first violated rule. -/
theorem c1_validation_rules_in_order (r : SendEmailRequest) (i : Nat)
    (hv : violatesRule r i) (hmin : ∀ j, j < i → ¬ violatesRule r j) :
    validate r = some (ruleMessage r i) ∧
      (∀ c net unmarshal respDecode,
        ProductionSend c net unmarshal respDecode (some r) =
          (.failure (ruleMessage r i), c)) ∧
      (∀ inboxID c net unmarshal respDecode,
        SandboxSend inboxID c net unmarshal respDecode (some r) =
          (.failure (ruleMessage r i), c)) := by
  have hval : validate r = some (ruleMessage r i) := by
    rcases i with _ | _ | _ | _ | _ | _ | _ | i
    · simp only [violatesRule] at hv
      simp [validate, ruleMessage, hv]
    · have h0 := hmin 0 (by omega)
      simp only [violatesRule] at h0 hv
      simp [validate, ruleMessage, h0, hv]
    · have h0 := hmin 0 (by omega)
      have h1 := hmin 1 (by omega)
      simp only [violatesRule] at h0 h1 hv
      simp [validate, ruleMessage, h0, List.length_eq_zero, h1,
        validateTo_eq_some _ hv]
    · have h0 := hmin 0 (by omega)
      have h1 := hmin 1 (by omega)
      have h2 := hmin 2 (by omega)
      simp only [violatesRule] at h0 h1 h2 hv
      push_neg at h2
      have hTo : validateTo r.toAddrs = none := (validateTo_eq_none_iff _).mpr h2
      have hmsgs : attachmentErrMsgs r.attachments ≠ [] := by
        intro hnil
        rcases hv.2 with ⟨a, ha, hcase⟩
        have hfine := (attachmentErrMsgs_eq_nil_iff _).mp hnil a ha
        rcases hcase with hc | hf
        · exact hfine.1 hc
        · exact hfine.2 hf
      simp [validate, ruleMessage, h0, List.length_eq_zero, h1, hTo,
        validateAttachments_eq_some _ hv.1 hmsgs]
    · have h0 := hmin 0 (by omega)
      have h1 := hmin 1 (by omega)
      have h2 := hmin 2 (by omega)
      have h3 := hmin 3 (by omega)
      simp only [violatesRule] at h0 h1 h2 h3 hv
      push_neg at h2
      have hTo : validateTo r.toAddrs = none := (validateTo_eq_none_iff _).mpr h2
      have hAtt := validateAttachments_eq_none_of_not_rule3 _ h3
      simp [validate, ruleMessage, h0, List.length_eq_zero, h1, hTo, hAtt, hv]
    · have h0 := hmin 0 (by omega)
      have h1 := hmin 1 (by omega)
      have h2 := hmin 2 (by omega)
      have h3 := hmin 3 (by omega)
      have h4 := hmin 4 (by omega)
      simp only [violatesRule] at h0 h1 h2 h3 h4 hv
      push_neg at h2
      have hTo : validateTo r.toAddrs = none := (validateTo_eq_none_iff _).mpr h2
      have hAtt := validateAttachments_eq_none_of_not_rule3 _ h3
      simp [validate, ruleMessage, h0, List.length_eq_zero, h1, hTo, hAtt, h4, hv]
    · have h0 := hmin 0 (by omega)
      have h1 := hmin 1 (by omega)
      have h2 := hmin 2 (by omega)
      have h3 := hmin 3 (by omega)
      have h4 := hmin 4 (by omega)
      have h5 := hmin 5 (by omega)
      simp only [violatesRule] at h0 h1 h2 h3 h4 h5 hv
      push_neg at h2
      have hTo : validateTo r.toAddrs = none := (validateTo_eq_none_iff _).mpr h2
      have hAtt := validateAttachments_eq_none_of_not_rule3 _ h3
      simp [validate, ruleMessage, categoryMaxLength, h0, List.length_eq_zero,
        h1, hTo, hAtt, h4, h5, hv]
    · simp only [violatesRule] at hv
  exact ⟨hval,
    fun c net unmarshal respDecode =>
      productionSend_of_validate_some c net unmarshal respDecode r _ hval,
    fun inboxID c net unmarshal respDecode =>
      sandboxSend_of_validate_some inboxID c net unmarshal respDecode r _ hval⟩

/-- C1 witness: the zero request violates the from rule (vacuously no
earlier rule) and validate yields exactly that message. -/
theorem c1_witness : validate emptySendEmailRequest = some fromRequiredMsg :=
  (c1_validation_rules_in_order emptySendEmailRequest 0 rfl
    (fun j hj => absurd hj (Nat.not_lt_zero j))).1

/-- C3: once the from, to and to-entry rules pass and attachments are
present, validation accumulates one content message per attachment with
empty content and one filename message per attachment with empty
filename, joining all of them with "; " into a single error instead of
stopping at the first problem; a single attachment missing both yields
the content message before the filename message. -/
theorem c3_attachment_accumulation (r : SendEmailRequest)
    (h1 : r.fromAddr.email ≠ "") (h2 : r.toAddrs ≠ [])
    (h3 : ∀ a ∈ r.toAddrs, a.email ≠ "") (h4 : r.attachments ≠ []) :
    (attachmentErrMsgs r.attachments ≠ [] →
      validate r = some (String.intercalate "; " (attachmentErrMsgs r.attachments))) ∧
    (attachmentErrMsgs r.attachments).count contentRequiredMsg =
      (r.attachments.filter (fun v => v.content == "")).length ∧
    (attachmentErrMsgs r.attachments).count filenameRequiredMsg =
      (r.attachments.filter (fun v => v.filename == "")).length ∧
    (∀ a, r.attachments = [a] → a.content = "" → a.filename = "" →
      validate r = some (contentRequiredMsg ++ "; " ++ filenameRequiredMsg)) := by
  have hTo : validateTo r.toAddrs = none := (validateTo_eq_none_iff _).mpr h3
  refine ⟨?_, attachmentErrMsgs_count_content _, attachmentErrMsgs_count_filename _, ?_⟩
  · intro hne
    simp [validate, h1, List.length_eq_zero, h2, hTo,
      validateAttachments_eq_some _ h4 hne]
  · intro a hatt hc hf
    have hmsgs : attachmentErrMsgs r.attachments =
        [contentRequiredMsg, filenameRequiredMsg] := by
      simp [hatt, attachmentErrMsgs, hc, hf]
    have hne : attachmentErrMsgs r.attachments ≠ [] := by simp [hmsgs]
    have hsome := validateAttachments_eq_some _ h4 hne
    rw [hmsgs] at hsome
    have hjoin : String.intercalate "; " [contentRequiredMsg, filenameRequiredMsg] =
        contentRequiredMsg ++ "; " ++ filenameRequiredMsg := by decide
    rw [hjoin] at hsome
    simp [validate, h1, List.length_eq_zero, h2, hTo, hsome]

/-- A send request every validation rule accepts, for concrete runs. -/
def validReq : SendEmailRequest :=
  { fromAddr := { email := "a@b.c", name := "A" },
    toAddrs := [{ email := "d@e.f", name := "D" }],
    cc := [], bcc := [],
    attachments := [{ content := "Zm9v", attachType := "text/plain",
                      filename := "f.txt", disposition := "attachment",
                      contentID := "" }],
    headers := [], customVars := [],
    subject := "S", text := "T", html := "", category := "C" }

/-- C3 witness: one attachment missing both content and filename yields
the two messages joined by "; ", content first. -/
theorem c3_witness :
    validate { validReq with attachments := [{ content := "", attachType := "",
                                               filename := "", disposition := "",
                                               contentID := "" }] } =
      some (contentRequiredMsg ++ "; " ++ filenameRequiredMsg) :=
  (c3_attachment_accumulation _ (by decide) (by decide) (by decide)
    (by decide)).2.2.2 _ rfl rfl rfl

/-- C10: validation reads only from, to, the attachments' content and
filename, subject, text, html and category: any cc, bcc, headers and
custom variables, and any rewriting of the attachments that preserves
content and filename, leave a passing validation passing. -/
theorem c10_validation_frame (r : SendEmailRequest)
    (h1 : r.fromAddr.email ≠ "") (h2 : r.toAddrs ≠ [])
    (h3 : ∀ a ∈ r.toAddrs, a.email ≠ "")
    (h4 : ∀ a ∈ r.attachments, a.content ≠ "" ∧ a.filename ≠ "")
    (h5 : r.subject ≠ "") (h6 : ¬(r.text = "" ∧ r.html = ""))
    (h7 : r.category.utf8ByteSize ≤ 255)
    (cc bcc : List EmailAddress) (headers customVars : List (String × String))
    (f : EmailAttachment → EmailAttachment)
    (hf : ∀ a, (f a).content = a.content ∧ (f a).filename = a.filename) :
    validate { r with cc := cc, bcc := bcc, headers := headers,
                      customVars := customVars,
                      attachments := r.attachments.map f } = none := by
  have hTo : validateTo r.toAddrs = none := (validateTo_eq_none_iff _).mpr h3
  have hAtt : validateAttachments (r.attachments.map f) = none := by
    rw [validateAttachments_eq_none_iff, attachmentErrMsgs_eq_nil_iff]
    intro a ha
    rcases List.mem_map.mp ha with ⟨b, hb, rfl⟩
    rcases h4 b hb with ⟨hbc, hbf⟩
    rcases hf b with ⟨hc, hfl⟩
    exact ⟨by rw [hc]; exact hbc, by rw [hfl]; exact hbf⟩
  have h7' : ¬(r.category.utf8ByteSize > 255) := by omega
  simp [validate, categoryMaxLength, h1, List.length_eq_zero, h2, hTo, hAtt,
    h5, h6, h7']

/-- C10 witness: adding cc and bcc entries with empty emails, headers,
custom variables, and rewriting the attachment's type, disposition and
content ID does not make a valid request invalid. -/
theorem c10_witness :
    validate { validReq with cc := [{ email := "", name := "" }],
                             bcc := [{ email := "", name := "" }],
                             headers := [("X-H", "v")],
                             customVars := [("k", "v")],
                             attachments := validReq.attachments.map (fun a =>
                               { a with attachType := "",
                                        disposition := "inline",
                                        contentID := "cid" }) } =
      none :=
  c10_validation_frame validReq (by decide) (by decide) (by decide) (by decide)
    (by decide) (by decide) (by decide) _ _ _ _ _ (fun a => ⟨rfl, rfl⟩)

/-- A network stub answering 200 with an empty body, for concrete runs. -/
def netOk : BuiltRequest → HttpResponse :=
  fun _ => { statusCode := 200, headers := [], body := "" }

/-- An error-body unmarshal stub that never parses, for concrete runs. -/
def unmarshalNone : String → Option String := fun _ => none

/-- A response decoder stub that always fails, for concrete runs. -/
def respDecodeFail : String → Except String SendEmailResponse :=
  fun _ => .error "json"

/-- C2 counterexample: at a nil request the Send error message is the
source's string with the type name in backquotes, not the claimed
"request is mandatory". -/
theorem c2_counterexample :
    ProductionSend (getClient "k" sendingAPIURL) netOk unmarshalNone respDecodeFail
        none =
      (.failure mandatoryMsg, getClient "k" sendingAPIURL) ∧
    mandatoryMsg ≠ "request is mandatory" :=
  ⟨rfl, by decide⟩

/-- C2 amended: at a nil request both clients' Send return the error
whose message is "request `SendEmailRequest` is mandatory" (backquotes
included), for every network whatsoever, with the client state untouched,
and the preflights build no HTTP request. -/
theorem c2_nil_request (c : Client) (inboxID : Int)
    (net : BuiltRequest → HttpResponse) (unmarshal : String → Option String)
    (respDecode : String → Except String SendEmailResponse) :
    ProductionSend c net unmarshal respDecode none = (.failure mandatoryMsg, c) ∧
    SandboxSend inboxID c net unmarshal respDecode none = (.failure mandatoryMsg, c) ∧
    ProductionPreflight c none = .error mandatoryMsg ∧
    SandboxPreflight inboxID c none = .error mandatoryMsg :=
  ⟨rfl, rfl, rfl, rfl⟩

/-- C4 counterexample: NewRequest at method GET with a non-nil body
attaches no body yet still sets Content-Type, refuting the claimed
header-present-iff-body-attached equivalence at this input. -/
theorem c4_counterexample :
    (NewRequest (getClient "k" sendingAPIURL) "GET" "/x" (some "\x7b\x7d")).1.bodyAttached =
      none ∧
    (NewRequest (getClient "k" sendingAPIURL) "GET" "/x"
        (some "\x7b\x7d")).1.headers.lookup "Content-Type" =
      some "application/json" := by
  constructor
  · rfl
  · simp [NewRequest, List.lookup]

/-- C4 amended: every request NewRequest builds carries Accept
application/json, the client's User-Agent and Authorization Bearer
api-key; GET, HEAD and OPTIONS attach no body while other methods attach
the serialized non-nil body (with the JSON encoder's trailing newline);
and Content-Type application/json is present exactly when the body
argument is non-nil — which for GET, HEAD and OPTIONS can hold even
though no body is attached. -/
theorem c4_new_request (c : Client) (method path : String) (body : Option String) :
    headerGet (NewRequest c method path body).1.headers "Accept" = defaultAccept ∧
    headerGet (NewRequest c method path body).1.headers "User-Agent" = c.userAgent ∧
    headerGet (NewRequest c method path body).1.headers "Authorization" =
      "Bearer " ++ c.apiKey ∧
    (NewRequest c method path body).1.bodyAttached =
      (if method = "GET" ∨ method = "HEAD" ∨ method = "OPTIONS" then none
       else body.map (fun b => b ++ "\n")) ∧
    (NewRequest c method path body).1.headers.lookup "Content-Type" =
      (if body.isSome then some "application/json" else none) := by
  cases body <;> simp [NewRequest, headerGet, List.lookup, defaultAccept]

/-- C5 (code-bug evaluation): NewRequest preserves the API key and user
agent but appends the request path to the shared base URL, since
client.go aliases the base url.URL pointer and assigns its Path field, so
after building one request the freshly constructed sending client's base
address path is "/api/send", no longer its construction value "/api". -/
theorem c5_base_url_mutation :
    (∀ (c : Client) (method path : String) (body : Option String),
      (NewRequest c method path body).2.apiKey = c.apiKey ∧
      (NewRequest c method path body).2.userAgent = c.userAgent ∧
      (NewRequest c method path body).2.baseURL.path = c.baseURL.path ++ path) ∧
    (getClient "k" sendingAPIURL).baseURL.path = "/api" ∧
    (NewRequest (getClient "k" sendingAPIURL) "POST" "/send" none).2.baseURL.path =
      "/api/send" ∧
    (NewRequest (getClient "k" sendingAPIURL) "POST" "/send" none).2.baseURL ≠
      (getClient "k" sendingAPIURL).baseURL :=
  ⟨fun c method path body => ⟨rfl, rfl, rfl⟩, rfl, rfl, by decide⟩

/-- C9 (code-bug evaluation): none of the SendEmailRequest struct tags
carries omitempty, so json.Marshal of the zero value emits all eleven
fields (empty strings, null slices and maps) and the output is not the
two-character object the repository's own marshal test expects. -/
theorem c9_zero_value_marshal :
    marshalSendEmailRequest emptySendEmailRequest =
      "\x7b\"from\":\x7b\"email\":\"\",\"name\":\"\"\x7d,\"to\":null,\"cc\":null,\"bcc\":null,\"attachments\":null,\"headers\":null,\"custom_variables\":null,\"subject\":\"\",\"text\":\"\",\"html\":\"\",\"category\":\"\"\x7d" ∧
    marshalSendEmailRequest emptySendEmailRequest ≠ "\x7b\x7d" := by
  refine ⟨rfl, by decide⟩

/-- C6 counterexample: a typed destination with a non-JSON Accept header
fails with the source's "decode() undefined response type", which is not
the claimed "decode: unsupported response type". -/
theorem c6_counterexample :
    doDecode respDecodeFail (some DecodeDest.typed) "body" "text/plain" =
      .error undefinedResponseTypeMsg ∧
    undefinedResponseTypeMsg ≠ "decode: unsupported response type" :=
  ⟨rfl, by decide⟩

/-- C6 amended: on the success path a nil destination discards the body
with no error, a raw-string destination receives the whole body verbatim,
a typed destination with Accept application/json gets the JSON decoder's
result (its value on success, its error on parse failure), and any other
combination fails with the error "decode() undefined response type". -/
theorem c6_decode_dispatch {α : Type} (jsonDecode : String → Except String α)
    (body accept : String) :
    doDecode jsonDecode none body accept = .ok .discarded ∧
    doDecode jsonDecode (some .rawString) body accept = .ok (.raw body) ∧
    (accept = defaultAccept →
      doDecode jsonDecode (some .typed) body accept =
        (match jsonDecode body with
         | .ok a => .ok (.typed a)
         | .error e => .error e)) ∧
    (accept ≠ defaultAccept →
      doDecode jsonDecode (some .typed) body accept =
        .error undefinedResponseTypeMsg) :=
  ⟨rfl, rfl, fun h => by simp [doDecode, h],
   fun h => by simp [doDecode, h]⟩

/-- C6 witness: at the typed destination with Accept text/plain the
decode fails with the source's message. -/
theorem c6_witness :
    doDecode respDecodeFail (some DecodeDest.typed) "b" "text/plain" =
      .error undefinedResponseTypeMsg :=
  (c6_decode_dispatch respDecodeFail "b" "text/plain").2.2.2 (by decide)

/-- C7: a status outside 200-299 makes checkResponse produce a structured
error wrapping the original response; when the body is non-empty, a
successful JSON unmarshal populates the message and an unmarshal failure
puts the raw body text verbatim in the message; a status in 200-299
produces no error. -/
theorem c7_check_response (unmarshal : String → Option String) (r : HttpResponse) :
    (200 ≤ r.statusCode ∧ r.statusCode ≤ 299 → checkResponse unmarshal r = none) ∧
    (¬(200 ≤ r.statusCode ∧ r.statusCode ≤ 299) →
      ∃ e, checkResponse unmarshal r = some e ∧ e.response = r ∧
        (r.body ≠ "" →
          (∀ m, unmarshal r.body = some m → e.message = m) ∧
          (unmarshal r.body = none → e.message = r.body)) ∧
        (r.body = "" → e.message = "")) := by
  refine ⟨fun h => by simp [checkResponse, h], fun h => ?_⟩
  by_cases hb : r.body = ""
  · exact ⟨{ response := r, message := "" },
      by simp [checkResponse, h, hb], rfl,
      fun hne => absurd hb hne, fun _ => rfl⟩
  · have hd : r.body.data ≠ [] := fun hdat => hb (String.ext hdat)
    have hl : r.body.length > 0 := List.length_pos.mpr hd
    rcases hu : unmarshal r.body with _ | m
    · exact ⟨{ response := r, message := r.body },
        by simp [checkResponse, h, hl, hu], rfl,
        fun _ => ⟨fun m hm => Option.noConfusion hm, fun _ => rfl⟩,
        fun he => absurd he hb⟩
    · exact ⟨{ response := r, message := m },
        by simp [checkResponse, h, hl, hu], rfl,
        fun _ => ⟨fun m' hm' => by injection hm',
          fun hn => Option.noConfusion hn⟩,
        fun he => absurd he hb⟩

/-- A concrete non-2xx response for the C7 witness. -/
def resp404 : HttpResponse :=
  { statusCode := 404, headers := [("X-Req", "1")], body := "oops" }

/-- C7 witness: a 404 with a non-JSON body yields a structured error
wrapping the response whose message is the raw body text. -/
theorem c7_witness :
    ∃ e, checkResponse unmarshalNone resp404 = some e ∧ e.response = resp404 ∧
      (resp404.body ≠ "" →
        (∀ m, unmarshalNone resp404.body = some m → e.message = m) ∧
        (unmarshalNone resp404.body = none → e.message = resp404.body)) ∧
      (resp404.body = "" → e.message = "") :=
  (c7_check_response unmarshalNone resp404).2 (by decide)

/-- C8: each Send equals the single spec pipeline at its own path — the
production one at "/send", the sandbox one at "/send/<inboxID>" — so the
two differ only in target path; they fail with identical errors on
identical inputs; and on a validated request each preflight builds a POST
whose URL path appends its target path to the base path. -/
theorem c8_send_equivalence (c : Client) (inboxID : Int)
    (net : BuiltRequest → HttpResponse) (unmarshal : String → Option String)
    (respDecode : String → Except String SendEmailResponse) :
    (∀ request, ProductionSend c net unmarshal respDecode request =
      sendWithPath "/send" c net unmarshal respDecode request) ∧
    (∀ request, SandboxSend inboxID c net unmarshal respDecode request =
      sendWithPath ("/send/" ++ toString inboxID) c net unmarshal respDecode request) ∧
    (∀ request, errOf (ProductionPreflight c request) =
      errOf (SandboxPreflight inboxID c request)) ∧
    (∀ r, validate r = none →
      (ProductionPreflight c (some r)).map (fun p => (p.1.method, p.1.url.path)) =
        .ok ("POST", c.baseURL.path ++ "/send") ∧
      (SandboxPreflight inboxID c (some r)).map (fun p => (p.1.method, p.1.url.path)) =
        .ok ("POST", c.baseURL.path ++ ("/send/" ++ toString inboxID))) := by
  refine ⟨fun request => ?_, fun request => ?_, fun request => ?_, fun r hv => ?_⟩
  · rcases request with _ | r
    · rfl
    · cases hv : validate r with
      | some e => simp [ProductionSend, ProductionPreflight, sendWithPath, hv]
      | none => simp [ProductionSend, ProductionPreflight, sendWithPath, hv]
  · rcases request with _ | r
    · rfl
    · cases hv : validate r with
      | some e => simp [SandboxSend, SandboxPreflight, sendWithPath, hv]
      | none => simp [SandboxSend, SandboxPreflight, sendWithPath, hv]
  · rcases request with _ | r
    · rfl
    · cases hv : validate r with
      | some e => simp [ProductionPreflight, SandboxPreflight, errOf, hv]
      | none => simp [ProductionPreflight, SandboxPreflight, errOf, hv]
  · constructor
    · simp [ProductionPreflight, hv, Except.map, NewRequest]
    · simp [SandboxPreflight, hv, Except.map, NewRequest]

/-- C8 witness: on a concrete valid request the production preflight
builds POST /api/send and the sandbox preflight with inbox 42 builds
POST /api/send/42. -/
theorem c8_witness :
    (ProductionPreflight (getClient "k" sendingAPIURL) (some validReq)).map
        (fun p => (p.1.method, p.1.url.path)) = .ok ("POST", "/api/send") ∧
    (SandboxPreflight 42 (getClient "k" sendingAPIURL) (some validReq)).map
        (fun p => (p.1.method, p.1.url.path)) = .ok ("POST", "/api/send/42") := by
  have h := (c8_send_equivalence (getClient "k" sendingAPIURL) 42 netOk
    unmarshalNone respDecodeFail).2.2.2 validReq (by decide)
  exact ⟨h.1, h.2⟩

end Mailtrap
